import Mathlib

/-!
Verification development for the customer-management SPA repository.

The subjects are the three source files:
  * `src/shared/hooks/useLocalStorage.ts` — the persistent-state hook
    (`readValue`, `setValue`, `removeValue`, `handleStorageChange`), its
    default serializer/deserializer (`JSON.stringify` / `JSON.parse`), and
    the generic `useEventListener` utility;
  * `src/app/router.tsx` — the route table;
  * `src/shared/lib/redux.ts` — type-level wiring only (nothing to verify).

The hook is generic in `T`; the embedding instantiates the value universe
with `JValue`, a model of the JavaScript values handled by the default
structural JSON codec: `null`, booleans, integral numbers, strings and
arrays (floating-point numbers, objects, and `\u` string escapes are outside
the embedded fragment; `undef` models the JavaScript `undefined` used by the
deserializer's special case and is not JSON-representable).  Store reads and
writes, logging (`console.warn` / `console.error`), dispatched events and
thrown exceptions are made explicit.
-/

/-- Model of the JavaScript values covered by the embedding. -/
inductive JValue where
  | null
  | bool (b : Bool)
  | num (n : Int)
  | str (s : String)
  | arr (elems : List JValue)
  | undef

/-! ### Decimal digits (for the number part of `JSON.stringify`) -/

/-- The decimal digit character for `d < 10`. -/
def digitChar : Nat → Char
  | 0 => '0'
  | 1 => '1'
  | 2 => '2'
  | 3 => '3'
  | 4 => '4'
  | 5 => '5'
  | 6 => '6'
  | 7 => '7'
  | 8 => '8'
  | 9 => '9'
  | _ => '0'

/-- Numeric value of a decimal digit character. -/
def digitVal (c : Char) : Nat := c.toNat - 48

/-- Whether a character is a decimal digit. -/
def isDigitChar (c : Char) : Bool := decide (48 ≤ c.toNat ∧ c.toNat ≤ 57)

/-- Most-significant-first decimal digits of `n`; the fuel argument makes the
recursion structural (any `fuel > n` is enough). -/
def natDigitsAux : Nat → Nat → List Char
  | 0, _ => []
  | f + 1, n =>
    if n < 10 then [digitChar n]
    else natDigitsAux f (n / 10) ++ [digitChar (n % 10)]

/-- Decimal digits of a natural number, most significant first. -/
def natDigits (n : Nat) : List Char := natDigitsAux (n + 1) n

/-- Decimal rendering of an integer (a leading minus sign when negative). -/
def intDigits (n : Int) : List Char :=
  if n < 0 then '-' :: natDigits n.natAbs else natDigits n.toNat

/-- Value of a most-significant-first digit list. -/
def digitsVal (ds : List Char) : Nat :=
  ds.foldl (fun a c => 10 * a + digitVal c) 0

/-- Split off the longest prefix of decimal digits. -/
def takeDigits : List Char → List Char × List Char
  | [] => ([], [])
  | c :: rest =>
    if isDigitChar c then
      let p := takeDigits rest
      (c :: p.1, p.2)
    else ([], c :: rest)

/-- A character list that does not begin with a decimal digit (so a greedy
number parse that stops right before it is correct). -/
def notDigitStart : List Char → Bool
  | [] => true
  | c :: _ => !isDigitChar c

/-! ### String escaping (the string part of `JSON.stringify`) -/

/-- Characters the embedded codec can place in a JSON string: everything but
the control characters, plus the three escapable control characters. -/
def reprChar (c : Char) : Bool :=
  if c.toNat < 32 then c = '\n' || c = '\r' || c = '\t' else true

/-- Escape one character as `JSON.stringify` does (on the embedded fragment). -/
def escapeChar (c : Char) : List Char :=
  if c = '"' then ['\\', '"']
  else if c = '\\' then ['\\', '\\']
  else if c = '\n' then ['\\', 'n']
  else if c = '\r' then ['\\', 'r']
  else if c = '\t' then ['\\', 't']
  else [c]

/-- Escape a whole character list. -/
def escapeList : List Char → List Char
  | [] => []
  | c :: rest => escapeChar c ++ escapeList rest

/-- Inverse of a single-character escape sequence. -/
def unescapeChar (c : Char) : Option Char :=
  if c = '"' then some '"'
  else if c = '\\' then some '\\'
  else if c = 'n' then some '\n'
  else if c = 'r' then some '\r'
  else if c = 't' then some '\t'
  else if c = '/' then some '/'
  else none

/-- Parse the body of a JSON string, after the opening quote, up to and
including the closing quote; yields the unescaped characters and the rest. -/
def parseStrBody : List Char → Option (List Char × List Char)
  | [] => none
  | c :: rest =>
    if c = '"' then some ([], rest)
    else if c = '\\' then
      match rest with
      | [] => none
      | e :: rest2 =>
        match unescapeChar e with
        | none => none
        | some u =>
          match parseStrBody rest2 with
          | none => none
          | some p => some (u :: p.1, p.2)
    else
      match parseStrBody rest with
      | none => none
      | some p => some (c :: p.1, p.2)

/-! ### `JSON.stringify` on the embedded fragment -/

def nullChars : List Char := ['n', 'u', 'l', 'l']

def trueChars : List Char := ['t', 'r', 'u', 'e']

def falseChars : List Char := ['f', 'a', 'l', 's', 'e']

mutual

/-- `JSON.stringify`, as a character list (embedded fragment; `undef` is not
representable and is given an arbitrary rendering here). -/
def jsonStringifyL : JValue → List Char
  | .null => nullChars
  | .bool true => trueChars
  | .bool false => falseChars
  | .num n => intDigits n
  | .str s => '"' :: (escapeList s.data ++ ['"'])
  | .arr xs => '[' :: (stringifyElemsL xs ++ [']'])
  | .undef => nullChars

/-- Comma-separated renderings of the array elements. -/
def stringifyElemsL : List JValue → List Char
  | [] => []
  | [x] => jsonStringifyL x
  | x :: y :: xs => jsonStringifyL x ++ (',' :: stringifyElemsL (y :: xs))

end

/-- `JSON.stringify` on the embedded fragment. -/
def jsonStringify (v : JValue) : String := String.mk (jsonStringifyL v)

mutual

/-- Whether a value is faithfully representable by the default structural
JSON encoding (no `undef`, and only codec-supported string characters). -/
def repOk : JValue → Bool
  | .null => true
  | .bool _ => true
  | .num _ => true
  | .str s => s.data.all reprChar
  | .arr xs => repOkList xs
  | .undef => false

/-- `repOk` on every element of a list. -/
def repOkList : List JValue → Bool
  | [] => true
  | x :: xs => repOk x && repOkList xs

end

/-! ### `JSON.parse` on the embedded fragment -/

/-- Expect a literal run of characters, returning what follows it. -/
def expectChars : List Char → List Char → Option (List Char)
  | [], cs => some cs
  | _ :: _, [] => none
  | e :: es, c :: cs => if c = e then expectChars es cs else none

/-- Expect the tail of a keyword literal and yield the given value. -/
def litTail (es : List Char) (rest : List Char) (v : JValue) :
    Option (JValue × List Char) :=
  match expectChars es rest with
  | some r => some (v, r)
  | none => none

mutual

/-- One JSON value, by recursive descent; structural on the fuel. -/
def jparseVal : Nat → List Char → Option (JValue × List Char)
  | 0, _ => none
  | f + 1, cs =>
    match cs with
    | [] => none
    | c :: rest =>
      if c = 'n' then litTail ['u', 'l', 'l'] rest JValue.null
      else if c = 't' then litTail ['r', 'u', 'e'] rest (JValue.bool true)
      else if c = 'f' then litTail ['a', 'l', 's', 'e'] rest (JValue.bool false)
      else if c = '"' then
        match parseStrBody rest with
        | some p => some (JValue.str (String.mk p.1), p.2)
        | none => none
      else if c = '[' then
        if rest.head? = some ']' then some (JValue.arr [], rest.tail)
        else
          match jparseElems f rest with
          | some p => some (JValue.arr p.1, p.2)
          | none => none
      else if c = '-' then
        let p := takeDigits rest
        if p.1.isEmpty then none
        else some (JValue.num (-(Int.ofNat (digitsVal p.1))), p.2)
      else if isDigitChar c then
        let p := takeDigits (c :: rest)
        some (JValue.num (Int.ofNat (digitsVal p.1)), p.2)
      else none

/-- One or more comma-separated values followed by a closing bracket. -/
def jparseElems : Nat → List Char → Option (List JValue × List Char)
  | 0, _ => none
  | f + 1, cs =>
    match jparseVal f cs with
    | none => none
    | some p =>
      match p.2 with
      | ',' :: r2 =>
        match jparseElems f r2 with
        | none => none
        | some q => some (p.1 :: q.1, q.2)
      | ']' :: r2 => some ([p.1], r2)
      | _ => none

end

/-- `JSON.parse` on the embedded fragment: `none` models a thrown
`SyntaxError`. -/
def jsonParse (s : String) : Option JValue :=
  match jparseVal (s.data.length + 1) s.data with
  | some p => if p.2.isEmpty then some p.1 else none
  | none => none

/-! ### The persistence store and browser environment -/

/-- `window.localStorage`, as an association list of key/text pairs. -/
abbrev Store := List (String × String)

/-- `localStorage.getItem` (returns `null`, here `none`, when absent). -/
def getItem : Store → String → Option String
  | [], _ => none
  | e :: rest, key => if e.1 = key then some e.2 else getItem rest key

/-- `localStorage.setItem`: replace the entry for the key, or append it. -/
def setItem : Store → String → String → Store
  | [], key, text => [(key, text)]
  | e :: rest, key, text =>
    if e.1 = key then (key, text) :: rest else e :: setItem rest key text

/-- `localStorage.removeItem`. -/
def removeItem : Store → String → Store
  | [], _ => []
  | e :: rest, key =>
    if e.1 = key then removeItem rest key else e :: removeItem rest key

/-- Execution environment: whether `window` exists (`IS_SERVER` is its
negation), and whether store writes fault (quota exceeded / store disabled). -/
structure Env where
  browser : Bool
  writeFails : Bool
deriving DecidableEq

/-- A thrown JavaScript exception. -/
inductive JsErr where
  | refError
  | quotaError
  | thrownBy (msg : String)
deriving DecidableEq

/-- A `console` log entry with its level. -/
inductive LogEntry where
  | warn (msg : String)
  | error (msg : String)
deriving DecidableEq

/-- An event dispatched on `window` (name and affected key). -/
structure DispatchedEvent where
  name : String
  key : String
deriving DecidableEq

def localStorageEventName : String := "local-storage"

def msgTriedSetting : String :=
  "Tried setting localStorage key even though environment is not a client"

def msgTriedRemoving : String :=
  "Tried removing localStorage key even though environment is not a client"

def msgErrorSetting : String := "Error setting localStorage key"

def msgErrorReading : String := "Error reading localStorage key"

def msgErrorParsing : String := "Error parsing JSON"

def strUndefined : String := "undefined"

/-! ### The `useLocalStorage` hook -/

/-- `initialValue`: either a direct value or a zero-argument producer. -/
inductive InitialValue where
  | val (v : JValue)
  | producer (f : Unit → JValue)

/-- `initialValue instanceof Function ? initialValue() : initialValue`. -/
def resolveInitial : InitialValue → JValue
  | .val v => v
  | .producer f => f ()

/-- The hook's `options` object.  A custom serializer or deserializer is a
JavaScript function and may throw, hence `Except`. -/
structure LSOptions where
  serializer : Option (JValue → Except JsErr String)
  deserializer : Option (String → Except JsErr JValue)
  initializeWithValue : Bool

/-- Options `{}`: no custom codec, `initializeWithValue` defaults to true. -/
def defaultOptions : LSOptions := ⟨none, none, true⟩

/-- The hook's `serializer` callback: the custom one, else `JSON.stringify`. -/
def runSerializer (opts : LSOptions) (v : JValue) : Except JsErr String :=
  match opts.serializer with
  | some f => f v
  | none => Except.ok (jsonStringify v)

/-- The hook's `deserializer` callback: the custom one if given; otherwise the
literal text `undefined` decodes to `undefined`, and `JSON.parse` is applied,
with a parse failure caught inside the callback, logged via `console.error`,
and resolved to the (re-resolved) initial value. -/
def runDeserializer (opts : LSOptions) (initial : InitialValue) (raw : String) :
    Except JsErr JValue × List LogEntry :=
  match opts.deserializer with
  | some f => (f raw, [])
  | none =>
    if raw = strUndefined then (Except.ok JValue.undef, [])
    else
      match jsonParse raw with
      | some parsed => (Except.ok parsed, [])
      | none =>
        (Except.ok (resolveInitial initial), [LogEntry.error msgErrorParsing])

/-- `readValue`: on the server return the resolved initial value; otherwise
read the raw text (a `null` or empty — falsy — result yields the initial
value) and deserialize it, catching any thrown fault with a `console.warn`
and the initial value. -/
def readValue (env : Env) (store : Store) (key : String)
    (initial : InitialValue) (opts : LSOptions) : JValue × List LogEntry :=
  let initialValueToUse := resolveInitial initial
  if env.browser = false then (initialValueToUse, [])
  else
    match getItem store key with
    | none => (initialValueToUse, [])
    | some raw =>
      if raw.isEmpty then (initialValueToUse, [])
      else
        match runDeserializer opts initial raw with
        | (Except.ok v, logs) => (v, logs)
        | (Except.error _, logs) =>
          (initialValueToUse, logs ++ [LogEntry.warn msgErrorReading])

/-- The argument of `setValue`: a direct value or a function of the previous
value (`value instanceof Function`). -/
inductive SetStateAction where
  | value (v : JValue)
  | fn (f : JValue → JValue)

/-- Result of a `setValue` call: the store, the hook's in-memory state, the
events dispatched on `window`, and the console log, after the call. -/
structure SetResult where
  store : Store
  mem : JValue
  events : List DispatchedEvent
  logs : List LogEntry

/-- `const newValue = value instanceof Function ? value(readValue()) : value`:
the value to be written, with the log of the fresh read it may perform. -/
def newValuePair (env : Env) (store : Store) (key : String)
    (initial : InitialValue) (opts : LSOptions) (action : SetStateAction) :
    JValue × List LogEntry :=
  match action with
  | .value v => (v, [])
  | .fn f =>
    let p := readValue env store key initial opts
    (f p.1, p.2)

/-- `setValue`: warn (without returning) on the server; then, inside
`try`/`catch`: compute the new value (a function argument is applied to a
fresh `readValue`, not to the in-memory state), serialize, write to the
store, update the in-memory state, and dispatch a `local-storage` event
carrying the key.  Accessing `window` on the server, a throwing custom
serializer, and a failing store write are all caught with a `console.warn`,
leaving store and in-memory state unchanged and dispatching nothing. -/
def setValue (env : Env) (store : Store) (mem : JValue) (key : String)
    (initial : InitialValue) (opts : LSOptions) (action : SetStateAction) :
    SetResult :=
  let serverLogs := if env.browser then [] else [LogEntry.warn msgTriedSetting]
  let nv : JValue × List LogEntry :=
    newValuePair env store key initial opts action
  if env.browser = false then
    ⟨store, mem, [], serverLogs ++ nv.2 ++ [LogEntry.warn msgErrorSetting]⟩
  else
    match runSerializer opts nv.1 with
    | Except.error _ =>
      ⟨store, mem, [], serverLogs ++ nv.2 ++ [LogEntry.warn msgErrorSetting]⟩
    | Except.ok text =>
      if env.writeFails then
        ⟨store, mem, [], serverLogs ++ nv.2 ++ [LogEntry.warn msgErrorSetting]⟩
      else
        ⟨setItem store key text, nv.1, [⟨localStorageEventName, key⟩],
          serverLogs ++ nv.2⟩

/-- Result of a successful `removeValue` call. -/
structure RemoveOk where
  store : Store
  mem : JValue
  events : List DispatchedEvent

/-- `removeValue`: warn (without returning) on the server, then — with no
`try`/`catch` — delete the key, reset the in-memory state to the resolved
initial value, and dispatch the notification.  On the server the
`window.localStorage` member access itself throws a `ReferenceError`, which
nothing catches. -/
def removeValue (env : Env) (store : Store) (key : String)
    (initial : InitialValue) : List LogEntry × Except JsErr RemoveOk :=
  let serverLogs := if env.browser then [] else [LogEntry.warn msgTriedRemoving]
  let defaultValue := resolveInitial initial
  if env.browser = false then (serverLogs, Except.error JsErr.refError)
  else
    (serverLogs,
      Except.ok ⟨removeItem store key, defaultValue,
        [⟨localStorageEventName, key⟩]⟩)

/-- The guard of `handleStorageChange`: a truthy event key different from the
hook's key blocks the refresh. -/
def eventKeyBlocks (key : String) : Option String → Bool
  | none => false
  | some s => !s.isEmpty && !(s == key)

/-- `handleStorageChange`: on a `storage` or `local-storage` notification,
return unless the event carries a truthy key different from this hook's key;
otherwise refresh the in-memory state from a fresh `readValue`. -/
def handleStorageChange (env : Env) (store : Store) (key : String)
    (initial : InitialValue) (opts : LSOptions) (mem : JValue)
    (eventKey : Option String) : JValue :=
  if eventKeyBlocks key eventKey then mem
  else (readValue env store key initial opts).1

/-- The hook's `useState` initializer: a synchronous store read when
`initializeWithValue`, else the resolved initial value. -/
def hookInit (env : Env) (store : Store) (key : String)
    (initial : InitialValue) (opts : LSOptions) : JValue :=
  if opts.initializeWithValue then (readValue env store key initial opts).1
  else resolveInitial initial

/-! ### The `useEventListener` utility (target selection of its effect) -/

/-- Identifies a potential event target. -/
inductive TargetKind where
  | windowTarget
  | elementTarget (id : Nat)
deriving DecidableEq

/-- A potential event target and whether it has `addEventListener`. -/
structure EvTarget where
  kind : TargetKind
  hasAddEventListener : Bool
deriving DecidableEq

/-- A React ref object; `current` is `null` e.g. before mount. -/
structure RefObj where
  current : Option EvTarget
deriving DecidableEq

/-- `element?.current ?? window`. -/
def resolveListenTarget (element : Option RefObj) (window : Option EvTarget) :
    Option EvTarget :=
  match element with
  | some r =>
    match r.current with
    | some t => some t
    | none => window
  | none => window

/-- The effect of `useEventListener`: `some t` means a listener was attached
to target `t`; `none` means the guard returned and nothing was attached. -/
def useEventListenerTarget (element : Option RefObj)
    (window : Option EvTarget) : Option EvTarget :=
  match resolveListenTarget element window with
  | none => none
  | some t => if t.hasAddEventListener then some t else none

/-! ### The router table (`src/app/router.tsx`) -/

/-- The elements appearing in the route table. -/
inductive RElem where
  | authPage
  | customersPage
  | customerPage
  | rootLayout
  | navigate (dest : String)
deriving DecidableEq

/-- A child route (this table nests exactly one level). -/
structure ChildRoute where
  path : String
  element : RElem

/-- A top-level route of `createBrowserRouter`'s argument. -/
structure TopRoute where
  path : Option String
  element : Option RElem
  children : List ChildRoute

def loginPath : String := "login"

def rootPath : String := "/"

def customersPath : String := "customers"

def customersAbs : String := "/customers"

def customerDetailPath : String := "/customers/:customerId"

/-- The route table passed to `createBrowserRouter`. -/
def router : List TopRoute :=
  [⟨some loginPath, some RElem.authPage, []⟩,
   ⟨some rootPath, some (RElem.navigate customersAbs), []⟩,
   ⟨none, some RElem.rootLayout,
     [⟨customersPath, RElem.customersPage⟩,
      ⟨customerDetailPath, RElem.customerPage⟩]⟩]

/-- Path segmentation (empty segments from leading, trailing or doubled
slashes are dropped, as the routing framework does). -/
def segsAux : List Char → List Char → List String
  | [], cur => if cur.isEmpty then [] else [String.mk cur.reverse]
  | c :: rest, cur =>
    if c = '/' then
      if cur.isEmpty then segsAux rest []
      else String.mk cur.reverse :: segsAux rest []
    else segsAux rest (c :: cur)

def segs (p : String) : List String := segsAux p.data []

/-- One pattern segment against one URL segment: a `:param` segment matches
anything, otherwise the segments must be equal. -/
def segMatches (pat seg : String) : Bool :=
  (match pat.data with
   | ':' :: _ => true
   | _ => false) || pat == seg

/-- A whole pattern against a whole segmented URL. -/
def patMatches (pat ss : List String) : Bool :=
  pat.length == ss.length && (List.zip pat ss).all fun p => segMatches p.1 p.2

/-- What a route subtree renders.  Models the react-router outcome: the
layout wraps its matched child (`Outlet`); `Navigate` is a client-side
redirect, represented as a pending `redirectTo`. -/
inductive Rendered where
  | auth
  | customersList
  | customerDetail
  | layout (child : Rendered)
  | redirectTo (dest : String)
  | blank
deriving DecidableEq

/-- Render a route element, wrapping the matched child if it is the layout. -/
def renderElem : RElem → Option Rendered → Rendered
  | .authPage, _ => .auth
  | .customersPage, _ => .customersList
  | .customerPage, _ => .customerDetail
  | .navigate d, _ => .redirectTo d
  | .rootLayout, some c => .layout c
  | .rootLayout, none => .blank

/-- Match one child route. -/
def matchChild (ss : List String) (r : ChildRoute) : Option Rendered :=
  if patMatches (segs r.path) ss then some (renderElem r.element none) else none

/-- First matching child route. -/
def firstChild : List ChildRoute → List String → Option Rendered
  | [], _ => none
  | r :: rest, ss =>
    match matchChild ss r with
    | some x => some x
    | none => firstChild rest ss

/-- Match one top-level route: a pathful route matches by pattern; a pathless
layout route matches when one of its children does, wrapping that child. -/
def matchTop (ss : List String) (r : TopRoute) : Option Rendered :=
  match r.path with
  | some p =>
    if patMatches (segs p) ss then r.element.map (fun e => renderElem e none)
    else none
  | none =>
    match firstChild r.children ss with
    | some child =>
      some (match r.element with
        | some e => renderElem e (some child)
        | none => child)
    | none => none

/-- First matching route of a table, for a URL path. -/
def matchRoutes : List TopRoute → String → Option Rendered
  | [], _ => none
  | r :: rest, p =>
    match matchTop (segs p) r with
    | some x => some x
    | none => matchRoutes rest p

/-- Navigate to a path and follow client-side redirects (fuel-bounded). -/
def renderRoute : Nat → String → Option Rendered
  | 0, _ => none
  | f + 1, p =>
    match matchRoutes router p with
    | some (Rendered.redirectTo t) => renderRoute f t
    | r => r

/-! ### Concrete fixtures -/

/-- A browser environment with a healthy store. -/
def envBrowser : Env := ⟨true, false⟩

/-- A non-browser (server) environment: `window` is undefined. -/
def envServer : Env := ⟨false, false⟩

/-- A browser environment whose store writes fault (e.g. quota exceeded). -/
def envQuota : Env := ⟨true, true⟩

def themeKey : String := "theme"

def countKey : String := "count"

def otherKey : String := "other"

def darkText : String := "dark"

/-- A stored text no JSON parse accepts. -/
def badText : String := "nope"

def oneText : String := "1"

def threeText : String := "3"

def emptyText : String := String.mk []

def loginAbs : String := "/login"

/-- The functional updater of the spec's counter scenario:
`(prev) => prev + 1` on numbers. -/
def jincr : JValue → JValue
  | JValue.num n => JValue.num (n + 1)
  | v => v

/-- The lazy default of the spec's counter scenario: `() => 0`. -/
def lazyZero : InitialValue := InitialValue.producer fun _ => JValue.num 0

/-- Whether a log entry is a `console.warn` entry. -/
def isWarn : LogEntry → Bool
  | LogEntry.warn _ => true
  | LogEntry.error _ => false

/-- The window target, with `addEventListener` available. -/
def windowT : EvTarget := ⟨TargetKind.windowTarget, true⟩

/-! ### Digit lemmas -/

theorem digitChar_val : ∀ d : Nat, d < 10 →
    digitVal (digitChar d) = d ∧ isDigitChar (digitChar d) = true := by
  intro d h
  interval_cases d <;> exact ⟨by decide, by decide⟩

theorem natDigitsAux_digits : ∀ f n : Nat, n < f →
    natDigitsAux f n ≠ [] ∧ ∀ c ∈ natDigitsAux f n, isDigitChar c = true := by
  intro f
  induction f with
  | zero => intro n h; omega
  | succ f ih =>
    intro n h
    by_cases h10 : n < 10
    · refine ⟨by simp [natDigitsAux, h10], ?_⟩
      intro c hc
      simp [natDigitsAux, h10] at hc
      exact hc ▸ (digitChar_val n h10).2
    · have hn : n / 10 < f := by omega
      have hrec := ih (n / 10) hn
      refine ⟨?_, ?_⟩
      · simp only [natDigitsAux, h10, if_false]
        simp
      · intro c hc
        simp only [natDigitsAux, h10, if_false, List.mem_append,
          List.mem_singleton] at hc
        rcases hc with hc | hc
        · exact hrec.2 c hc
        · exact hc ▸ (digitChar_val (n % 10) (by omega)).2

theorem digitsVal_append (l : List Char) (c : Char) :
    digitsVal (l ++ [c]) = 10 * digitsVal l + digitVal c := by
  simp [digitsVal, List.foldl_append]

theorem digitsVal_natDigitsAux : ∀ f n : Nat, n < f →
    digitsVal (natDigitsAux f n) = n := by
  intro f
  induction f with
  | zero => intro n h; omega
  | succ f ih =>
    intro n h
    by_cases h10 : n < 10
    · simp only [natDigitsAux, h10, if_true]
      have := (digitChar_val n h10).1
      simp [digitsVal, this]
    · have hn : n / 10 < f := by omega
      simp only [natDigitsAux, h10, if_false]
      rw [digitsVal_append, ih (n / 10) hn, (digitChar_val (n % 10) (by omega)).1]
      omega

theorem natDigits_spec (n : Nat) :
    digitsVal (natDigits n) = n ∧ natDigits n ≠ [] ∧
      ∀ c ∈ natDigits n, isDigitChar c = true := by
  have h := natDigitsAux_digits (n + 1) n (by omega)
  exact ⟨digitsVal_natDigitsAux (n + 1) n (by omega), h.1, h.2⟩

theorem takeDigits_append : ∀ (ds rest : List Char),
    (∀ c ∈ ds, isDigitChar c = true) → notDigitStart rest = true →
    takeDigits (ds ++ rest) = (ds, rest) := by
  intro ds
  induction ds with
  | nil =>
    intro rest _ hr
    cases rest with
    | nil => rfl
    | cons c t =>
      simp only [notDigitStart, Bool.not_eq_true'] at hr
      simp [takeDigits, hr]
  | cons c t ih =>
    intro rest hds hr
    have hc : isDigitChar c = true := hds c (by simp)
    simp [takeDigits, hc, ih rest (fun x hx => hds x (by simp [hx])) hr]

/-! ### String-escape round trip -/

theorem parseStrBody_escape : ∀ (cs rest : List Char),
    parseStrBody (escapeList cs ++ '"' :: rest) = some (cs, rest) := by
  intro cs
  induction cs with
  | nil =>
    intro rest
    simp only [escapeList, List.nil_append]
    rw [parseStrBody.eq_def]
    rfl
  | cons c t ih =>
    intro rest
    by_cases hq : c = '"'
    · subst hq; simp [escapeList, escapeChar, parseStrBody, unescapeChar, ih]
    · by_cases hb : c = '\\'
      · subst hb; simp [escapeList, escapeChar, parseStrBody, unescapeChar, ih]
      · by_cases h1 : c = '\n'
        · subst h1
          simp [escapeList, escapeChar, parseStrBody, unescapeChar, ih]
        · by_cases h2 : c = '\r'
          · subst h2
            simp [escapeList, escapeChar, parseStrBody, unescapeChar, ih]
          · by_cases h3 : c = '\t'
            · subst h3
              simp [escapeList, escapeChar, parseStrBody, unescapeChar, ih]
            · have hrec := ih rest
              simp only [escapeList, escapeChar, if_neg hq, if_neg hb,
                if_neg h1, if_neg h2, if_neg h3, List.singleton_append,
                List.cons_append]
              rw [parseStrBody.eq_def]
              simp [if_neg hq, if_neg hb, hrec]

/-! ### Leading characters of a rendering -/

theorem natDigits_cons (m : Nat) :
    ∃ c cs, natDigits m = c :: cs ∧ isDigitChar c = true := by
  obtain ⟨-, hne, hdig⟩ := natDigits_spec m
  cases h : natDigits m with
  | nil => exact absurd h hne
  | cons c cs => exact ⟨c, cs, rfl, hdig c (by rw [h]; simp)⟩

theorem digit_ne {c : Char} (h : isDigitChar c = true) :
    c ≠ '"' ∧ c ≠ '[' ∧ c ≠ ']' ∧ c ≠ ',' ∧ c ≠ '-' ∧
      c ≠ 'n' ∧ c ≠ 't' ∧ c ≠ 'f' ∧ c ≠ 'u' := by
  refine ⟨?_, ?_, ?_, ?_, ?_, ?_, ?_, ?_, ?_⟩ <;>
    (rintro rfl; exact absurd h (by decide))

theorem stringify_head (v : JValue) : ∃ c cs, jsonStringifyL v = c :: cs ∧
    (c = '"' ∨ c = '[' ∨ c = '-' ∨ c = 'n' ∨ c = 't' ∨ c = 'f' ∨
      isDigitChar c = true) := by
  cases v with
  | null => exact ⟨'n', _, rfl, by simp⟩
  | bool b =>
    cases b with
    | true => exact ⟨'t', _, rfl, by simp⟩
    | false => exact ⟨'f', _, rfl, by simp⟩
  | num n =>
    by_cases hneg : n < 0
    · refine ⟨'-', natDigits n.natAbs, ?_, by simp⟩
      simp [jsonStringifyL, intDigits, hneg]
    · obtain ⟨c, cs, hc, hd⟩ := natDigits_cons n.toNat
      refine ⟨c, cs, ?_, by simp [hd]⟩
      simp [jsonStringifyL, intDigits, hneg, hc]
  | str s => exact ⟨'"', _, rfl, by simp⟩
  | arr xs => exact ⟨'[', _, rfl, by simp⟩
  | undef => exact ⟨'n', _, rfl, by simp⟩

theorem head_ne_rbracket {c : Char}
    (h : c = '"' ∨ c = '[' ∨ c = '-' ∨ c = 'n' ∨ c = 't' ∨ c = 'f' ∨
      isDigitChar c = true) : c ≠ ']' := by
  rcases h with h | h | h | h | h | h | h
  case _ => subst h; decide
  case _ => subst h; decide
  case _ => subst h; decide
  case _ => subst h; decide
  case _ => subst h; decide
  case _ => subst h; decide
  case _ => exact (digit_ne h).2.2.1

theorem head_ne_u {c : Char}
    (h : c = '"' ∨ c = '[' ∨ c = '-' ∨ c = 'n' ∨ c = 't' ∨ c = 'f' ∨
      isDigitChar c = true) : c ≠ 'u' := by
  rcases h with h | h | h | h | h | h | h
  case _ => subst h; decide
  case _ => subst h; decide
  case _ => subst h; decide
  case _ => subst h; decide
  case _ => subst h; decide
  case _ => subst h; decide
  case _ => exact (digit_ne h).2.2.2.2.2.2.2.2

/-! ### Parser unfolding lemmas -/

theorem jparseVal_cons (f : Nat) (c : Char) (rest : List Char) :
    jparseVal (f + 1) (c :: rest) =
      (if c = 'n' then litTail ['u', 'l', 'l'] rest JValue.null
      else if c = 't' then litTail ['r', 'u', 'e'] rest (JValue.bool true)
      else if c = 'f' then litTail ['a', 'l', 's', 'e'] rest (JValue.bool false)
      else if c = '"' then
        match parseStrBody rest with
        | some p => some (JValue.str (String.mk p.1), p.2)
        | none => none
      else if c = '[' then
        if rest.head? = some ']' then some (JValue.arr [], rest.tail)
        else
          match jparseElems f rest with
          | some p => some (JValue.arr p.1, p.2)
          | none => none
      else if c = '-' then
        let p := takeDigits rest
        if p.1.isEmpty then none
        else some (JValue.num (-(Int.ofNat (digitsVal p.1))), p.2)
      else if isDigitChar c then
        let p := takeDigits (c :: rest)
        some (JValue.num (Int.ofNat (digitsVal p.1)), p.2)
      else none) := rfl

theorem jparseElems_succ (f : Nat) (cs : List Char) :
    jparseElems (f + 1) cs =
      (match jparseVal f cs with
      | none => none
      | some p =>
        match p.2 with
        | ',' :: r2 =>
          match jparseElems f r2 with
          | none => none
          | some q => some (p.1 :: q.1, q.2)
        | ']' :: r2 => some ([p.1], r2)
        | _ => none) := rfl

theorem stringifyElemsL_cons (x : JValue) (xs : List JValue) :
    ∃ tl, stringifyElemsL (x :: xs) = jsonStringifyL x ++ tl := by
  cases xs with
  | nil => exact ⟨[], by simp [stringifyElemsL]⟩
  | cons y ys => exact ⟨',' :: stringifyElemsL (y :: ys), rfl⟩

theorem notDigitStart_cons (c : Char) (t : List Char)
    (h : isDigitChar c = false) : notDigitStart (c :: t) = true := by
  simp [notDigitStart, h]

/-! ### The codec round trip -/

mutual

/-- Parsing a rendered representable value recovers it exactly, leaving the
remainder untouched (the remainder must not begin with a digit, since a
number parse is greedy). -/
theorem rtVal : ∀ (v : JValue) (fuel : Nat) (rest : List Char),
    repOk v = true → (jsonStringifyL v).length < fuel →
    notDigitStart rest = true →
    jparseVal fuel (jsonStringifyL v ++ rest) = some (v, rest)
  | .null, fuel, rest, _, hf, _ => by
    cases fuel with
    | zero => omega
    | succ f =>
      show jparseVal (f + 1) (nullChars ++ rest) = _
      simp only [nullChars, List.cons_append, List.nil_append]
      rw [jparseVal_cons]
      simp [litTail, expectChars]
  | .bool true, fuel, rest, _, hf, _ => by
    cases fuel with
    | zero => omega
    | succ f =>
      show jparseVal (f + 1) (trueChars ++ rest) = _
      simp only [trueChars, List.cons_append, List.nil_append]
      rw [jparseVal_cons]
      simp [litTail, expectChars]
  | .bool false, fuel, rest, _, hf, _ => by
    cases fuel with
    | zero => omega
    | succ f =>
      show jparseVal (f + 1) (falseChars ++ rest) = _
      simp only [falseChars, List.cons_append, List.nil_append]
      rw [jparseVal_cons]
      simp [litTail, expectChars]
  | .num n, fuel, rest, _, hf, hr => by
    by_cases hneg : n < 0
    · have hs : jsonStringifyL (JValue.num n) = '-' :: natDigits n.natAbs := by
        simp [jsonStringifyL, intDigits, hneg]
      rw [hs] at hf ⊢
      cases fuel with
      | zero => omega
      | succ f =>
        obtain ⟨hval, hne, hdig⟩ := natDigits_spec n.natAbs
        have htake : takeDigits (natDigits n.natAbs ++ rest) =
            (natDigits n.natAbs, rest) := takeDigits_append _ _ hdig hr
        simp only [List.cons_append]
        rw [jparseVal_cons]
        simp [htake, List.isEmpty_iff, hne]
        omega
    · have hs : jsonStringifyL (JValue.num n) = natDigits n.toNat := by
        simp [jsonStringifyL, intDigits, hneg]
      rw [hs] at hf ⊢
      obtain ⟨c, cs, hc, hd⟩ := natDigits_cons n.toNat
      rw [hc] at hf ⊢
      cases fuel with
      | zero => omega
      | succ f =>
        obtain ⟨m1, m2, -, -, m3, m4, m5, m6, -⟩ := digit_ne hd
        have htake : takeDigits (c :: (cs ++ rest)) = (c :: cs, rest) := by
          have he : c :: (cs ++ rest) = (c :: cs) ++ rest := by simp
          rw [he, ← hc]
          exact takeDigits_append _ _ (natDigits_spec n.toNat).2.2 hr
        have hdv : digitsVal (c :: cs) = n.toNat := by
          rw [← hc]; exact (natDigits_spec n.toNat).1
        simp only [List.cons_append]
        rw [jparseVal_cons]
        simp only [if_neg m4, if_neg m5, if_neg m6, if_neg m1, if_neg m2,
          if_neg m3, if_pos hd]
        simp [htake]
        omega
  | .str s, fuel, rest, _, hf, _ => by
    cases fuel with
    | zero => omega
    | succ f =>
      have harr : jsonStringifyL (JValue.str s) ++ rest
          = '"' :: (escapeList s.data ++ '"' :: rest) := by
        simp [jsonStringifyL]
      rw [harr, jparseVal_cons]
      simp [parseStrBody_escape]
  | .arr [], fuel, rest, _, hf, _ => by
    cases fuel with
    | zero => omega
    | succ f =>
      have harr : jsonStringifyL (JValue.arr []) ++ rest
          = '[' :: (']' :: rest) := by
        simp [jsonStringifyL, stringifyElemsL]
      rw [harr, jparseVal_cons]
      simp
  | .arr (x :: xs), fuel, rest, hrep, hf, _ => by
    cases fuel with
    | zero => omega
    | succ f =>
      have hrepl : repOkList (x :: xs) = true := by
        simpa [repOk] using hrep
      have harr : jsonStringifyL (JValue.arr (x :: xs)) ++ rest
          = '[' :: (stringifyElemsL (x :: xs) ++ ']' :: rest) := by
        simp [jsonStringifyL]
      obtain ⟨tl, htl⟩ := stringifyElemsL_cons x xs
      obtain ⟨c, cs, hcx, hknd⟩ := stringify_head x
      have hhead : (stringifyElemsL (x :: xs) ++ ']' :: rest).head? = some c := by
        rw [htl, hcx]; simp
      have hnhead : ¬ ((stringifyElemsL (x :: xs) ++ ']' :: rest).head? =
          some ']') := by
        rw [hhead]
        simp only [Option.some.injEq]
        exact head_ne_rbracket hknd
      have hfe : (stringifyElemsL (x :: xs)).length + 1 < f := by
        simp only [jsonStringifyL, List.length_cons, List.length_append,
          List.length_singleton] at hf
        omega
      have hrec := rtElems x xs f rest hrepl hfe
      rw [harr, jparseVal_cons]
      simp only [if_neg (by decide : ¬ ('[' : Char) = 'n'),
        if_neg (by decide : ¬ ('[' : Char) = 't'),
        if_neg (by decide : ¬ ('[' : Char) = 'f'),
        if_neg (by decide : ¬ ('[' : Char) = '"'),
        if_pos rfl, if_neg hnhead, hrec]
      simp
  | .undef, fuel, rest, hrep, _, _ => by simp [repOk] at hrep
termination_by v _ _ _ _ _ => sizeOf v

/-- Parsing a rendered nonempty element list (followed by the closing
bracket) recovers the elements. -/
theorem rtElems : ∀ (x : JValue) (xs : List JValue) (fuel : Nat)
    (rest : List Char),
    repOkList (x :: xs) = true →
    (stringifyElemsL (x :: xs)).length + 1 < fuel →
    jparseElems fuel (stringifyElemsL (x :: xs) ++ ']' :: rest) =
      some (x :: xs, rest)
  | x, [], fuel, rest, hrep, hf => by
    cases fuel with
    | zero => omega
    | succ f =>
      have hx : repOk x = true := by
        simpa [repOkList] using hrep
      have hfx : (jsonStringifyL x).length < f := by
        simp only [stringifyElemsL] at hf; omega
      have hv := rtVal x f (']' :: rest) hx hfx
        (notDigitStart_cons _ _ (by decide))
      show jparseElems (f + 1) (stringifyElemsL [x] ++ ']' :: rest) = _
      simp only [stringifyElemsL]
      rw [jparseElems_succ, hv]
      rfl
  | x, y :: ys, fuel, rest, hrep, hf => by
    cases fuel with
    | zero => omega
    | succ f =>
      have hparts : repOk x = true ∧ repOk y = true ∧ repOkList ys = true := by
        have := hrep
        simp only [repOkList, Bool.and_eq_true] at this
        exact ⟨this.1, this.2.1, this.2.2⟩
      have hx : repOk x = true := hparts.1
      have hrest : repOkList (y :: ys) = true := by
        simp only [repOkList, Bool.and_eq_true]
        exact ⟨hparts.2.1, hparts.2.2⟩
      have hse : stringifyElemsL (x :: y :: ys)
          = jsonStringifyL x ++ ',' :: stringifyElemsL (y :: ys) := rfl
      have hfx : (jsonStringifyL x).length < f := by
        rw [hse] at hf
        simp only [List.length_append, List.length_cons] at hf
        omega
      have hfy : (stringifyElemsL (y :: ys)).length + 1 < f := by
        rw [hse] at hf
        simp only [List.length_append, List.length_cons] at hf
        omega
      have hv := rtVal x f (',' :: (stringifyElemsL (y :: ys) ++ ']' :: rest))
        hx hfx (notDigitStart_cons _ _ (by decide))
      have hrec := rtElems y ys f rest hrest hfy
      rw [hse]
      have harg : (jsonStringifyL x ++ ',' :: stringifyElemsL (y :: ys)) ++
          ']' :: rest
          = jsonStringifyL x ++
            (',' :: (stringifyElemsL (y :: ys) ++ ']' :: rest)) := by
        simp
      rw [harg, jparseElems_succ, hv]
      simp [hrec]
termination_by x xs _ _ _ _ => sizeOf x + sizeOf xs

end

/-! ### Codec corollaries -/

theorem jsonParse_stringify (v : JValue) (h : repOk v = true) :
    jsonParse (jsonStringify v) = some v := by
  have hrt := rtVal v ((jsonStringifyL v).length + 1) [] h (by omega) rfl
  simp only [List.append_nil] at hrt
  simp [jsonParse, jsonStringify, hrt]

theorem jsonStringify_not_empty (v : JValue) :
    (jsonStringify v).isEmpty = false := by
  obtain ⟨c, cs, hc, -⟩ := stringify_head v
  simp [jsonStringify, hc, String.isEmpty, String.endPos, String.Pos.ext_iff]
  have := Char.utf8Size_pos c
  omega

theorem jsonStringify_ne_undefined (v : JValue) :
    jsonStringify v ≠ strUndefined := by
  obtain ⟨c, cs, hc, hknd⟩ := stringify_head v
  intro h
  have hdata : c :: cs = strUndefined.data := by
    rw [← hc, ← h]
    simp [jsonStringify]
  have : c = 'u' := by
    have := congrArg List.head? hdata
    simpa [strUndefined] using this
  exact head_ne_u hknd this

/-! ### Store lemmas -/

theorem getItem_setItem (s : Store) (k text : String) :
    getItem (setItem s k text) k = some text := by
  induction s with
  | nil => simp [setItem, getItem]
  | cons e t ih =>
    by_cases h : e.1 = k
    · simp [setItem, h, getItem]
    · simp [setItem, h, getItem, ih]

theorem getItem_removeItem (s : Store) (k : String) :
    getItem (removeItem s k) k = none := by
  induction s with
  | nil => simp [removeItem, getItem]
  | cons e t ih =>
    by_cases h : e.1 = k
    · simp [removeItem, h, ih]
    · simp [removeItem, h, getItem, ih]

/-! ### Hook-operation reduction lemmas -/

theorem setValue_default_value (env : Env) (store : Store) (mem : JValue)
    (k : String) (init : InitialValue) (v : JValue)
    (hb : env.browser = true) (hw : env.writeFails = false) :
    setValue env store mem k init defaultOptions (SetStateAction.value v) =
      ⟨setItem store k (jsonStringify v), v, [⟨localStorageEventName, k⟩],
        []⟩ := by
  simp [setValue, newValuePair, hb, hw, runSerializer, defaultOptions]

theorem setValue_default_fn (env : Env) (store : Store) (mem : JValue)
    (k : String) (init : InitialValue) (f : JValue → JValue)
    (hb : env.browser = true) (hw : env.writeFails = false) :
    setValue env store mem k init defaultOptions (SetStateAction.fn f) =
      ⟨setItem store k
          (jsonStringify (f (readValue env store k init defaultOptions).1)),
        f (readValue env store k init defaultOptions).1,
        [⟨localStorageEventName, k⟩],
        (readValue env store k init defaultOptions).2⟩ := by
  simp [setValue, newValuePair, hb, hw, runSerializer, defaultOptions]

theorem readValue_default_stored (env : Env) (store : Store) (k : String)
    (init : InitialValue) (v : JValue) (hb : env.browser = true)
    (hst : getItem store k = some (jsonStringify v)) (hv : repOk v = true) :
    readValue env store k init defaultOptions = (v, []) := by
  simp [readValue, hb, hst, jsonStringify_not_empty v, runDeserializer,
    defaultOptions, jsonStringify_ne_undefined v, jsonParse_stringify v hv]

/-! ### Claim C1 -/

/-- Claim C1: for every key `k` and every value `v` representable by the
default structural JSON encoding, calling the hook's `setValue` with `v`
under `k` and then reading `k` — a fresh hook read over the resulting store,
default serializer/deserializer options, any initial values — yields `v`. -/
theorem c1_write_read_roundtrip (env : Env) (store : Store) (mem : JValue)
    (k : String) (initW initR : InitialValue) (v : JValue)
    (hb : env.browser = true) (hw : env.writeFails = false)
    (hv : repOk v = true) :
    (readValue env
        (setValue env store mem k initW defaultOptions
          (SetStateAction.value v)).store
        k initR defaultOptions).1 = v := by
  rw [setValue_default_value env store mem k initW v hb hw]
  rw [readValue_default_stored env _ k initR v hb
    (getItem_setItem store k (jsonStringify v)) hv]

/-- Witness for C1 at a concrete input (the spec's own scenario: the string
value `dark` stored under `theme`). -/
theorem c1_write_read_roundtrip_witness :
    (readValue envBrowser
        (setValue envBrowser [] JValue.null themeKey
          (InitialValue.val JValue.null) defaultOptions
          (SetStateAction.value (JValue.str darkText))).store
        themeKey (InitialValue.val (JValue.num 0)) defaultOptions).1
      = JValue.str darkText :=
  c1_write_read_roundtrip envBrowser [] JValue.null themeKey
    (InitialValue.val JValue.null) (InitialValue.val (JValue.num 0))
    (JValue.str darkText) rfl rfl rfl

/-! ### Claim C4 -/

/-- Claim C4: a functional `setValue` argument is applied to the value
freshly read (and deserialized) from the store at call time — the equation's
right-hand side does not mention the in-memory state `mem` at all — and the
spec's concrete scenario holds: from lazy default `() => 0` with nothing
stored, three sequential `setValue((prev) => prev + 1)` calls end with
in-memory value `3` and stored text `3`. -/
theorem c4_functional_update (env : Env) (store : Store) (mem : JValue)
    (k : String) (init : InitialValue) (f : JValue → JValue)
    (hb : env.browser = true) (hw : env.writeFails = false) :
    ((setValue env store mem k init defaultOptions (SetStateAction.fn f)).mem
        = f (readValue env store k init defaultOptions).1)
    ∧ (let s1 := setValue envBrowser [] (JValue.num 0) countKey lazyZero
          defaultOptions (SetStateAction.fn jincr)
       let s2 := setValue envBrowser s1.store s1.mem countKey lazyZero
          defaultOptions (SetStateAction.fn jincr)
       let s3 := setValue envBrowser s2.store s2.mem countKey lazyZero
          defaultOptions (SetStateAction.fn jincr)
       s3.mem = JValue.num 3 ∧ getItem s3.store countKey = some threeText) := by
  constructor
  · rw [setValue_default_fn env store mem k init f hb hw]
  · exact ⟨rfl, by decide⟩

/-- Witness for C4: with stored text `1` and stale in-memory state `7`, the
functional update yields `2` (fresh read plus one), not `8`. -/
theorem c4_functional_update_witness :
    (setValue envBrowser [(themeKey, oneText)] (JValue.num 7) themeKey
        (InitialValue.val JValue.null) defaultOptions
        (SetStateAction.fn jincr)).mem = JValue.num 2 := by
  rw [(c4_functional_update envBrowser [(themeKey, oneText)] (JValue.num 7)
    themeKey (InitialValue.val JValue.null) jincr rfl rfl).1]
  rfl

/-! ### Claim C2 -/

/-- Claim C2 counterexample: with the malformed stored text `nope` under
`theme`, the read path does fall back to the resolved initial value, but the
whole log is one `console.error` entry — no warning is logged, refuting the
claim's "logs a warning". -/
theorem c2_counterexample :
    (readValue envBrowser [(themeKey, badText)] themeKey
        (InitialValue.val (JValue.num 0)) defaultOptions).1 = JValue.num 0
    ∧ (readValue envBrowser [(themeKey, badText)] themeKey
        (InitialValue.val (JValue.num 0)) defaultOptions).2
      = [LogEntry.error msgErrorParsing]
    ∧ ((readValue envBrowser [(themeKey, badText)] themeKey
        (InitialValue.val (JValue.num 0)) defaultOptions).2.any isWarn)
      = false :=
  ⟨rfl, rfl, rfl⟩

/-- Claim C2 (amended): for every key whose stored text is malformed (not
empty, not the literal `undefined`, rejected by `JSON.parse`), the default
read path returns the resolved initial value and logs a `console.error`
entry (not a warning); the fault is caught inside the deserializer and the
read returns normally rather than raising. -/
theorem c2_read_malformed (env : Env) (store : Store) (k : String)
    (init : InitialValue) (raw : String)
    (hb : env.browser = true) (hst : getItem store k = some raw)
    (hne : raw.isEmpty = false) (hnu : raw ≠ strUndefined)
    (hbad : jsonParse raw = none) :
    readValue env store k init defaultOptions
      = (resolveInitial init, [LogEntry.error msgErrorParsing]) := by
  simp [readValue, hb, hst, hne, runDeserializer, defaultOptions, hnu, hbad]

/-- Witness for the amended C2 at the concrete malformed text `nope`. -/
theorem c2_read_malformed_witness :
    readValue envBrowser [(themeKey, badText)] themeKey lazyZero
        defaultOptions
      = (resolveInitial lazyZero, [LogEntry.error msgErrorParsing]) :=
  c2_read_malformed envBrowser [(themeKey, badText)] themeKey lazyZero
    badText rfl rfl rfl (by decide) rfl

/-! ### Claim C3 -/

/-- Claim C3 evaluated at the failing input: outside a browser context,
`removeValue` logs the warning but then dereferences the absent `window`
for the persistence step, and the resulting `ReferenceError` propagates to
the caller uncaught (there is no `try`/`catch` in `removeValue`). -/
theorem c3_remove_nonbrowser_throws :
    removeValue envServer [(themeKey, oneText)] themeKey
        (InitialValue.val (JValue.num 0))
      = ([LogEntry.warn msgTriedRemoving], Except.error JsErr.refError) :=
  rfl

/-! ### Claim C5 -/

/-- Claim C5 counterexample: a notification that carries the empty-string
key — a key, and a different one from this hook's `theme` — still triggers
a refresh, because the guard tests JavaScript truthiness of the key: the
handler returns the freshly read `1`, not the unchanged in-memory `0`. -/
theorem c5_counterexample :
    emptyText ≠ themeKey
    ∧ handleStorageChange envBrowser [(themeKey, oneText)] themeKey
        (InitialValue.val (JValue.num 0)) defaultOptions (JValue.num 0)
        (some emptyText) = JValue.num 1
    ∧ JValue.num 1 ≠ JValue.num 0 := by
  refine ⟨by decide, rfl, ?_⟩
  intro h
  rw [JValue.num.injEq] at h
  omega

/-- Claim C5 (amended): the handler leaves the in-memory state unchanged
exactly when the notification carries a truthy (non-empty) key different
from the hook's key; it refreshes from a fresh read when the key is absent,
empty, or equal to the hook's key. -/
theorem c5_handle_storage_change (env : Env) (store : Store) (k : String)
    (init : InitialValue) (opts : LSOptions) (mem : JValue)
    (ek : Option String) :
    (∀ s : String, ek = some s → s.isEmpty = false → s ≠ k →
      handleStorageChange env store k init opts mem ek = mem)
    ∧ ((ek = none ∨ ek = some emptyText ∨ ek = some k) →
      handleStorageChange env store k init opts mem ek
        = (readValue env store k init opts).1) := by
  constructor
  · rintro s rfl hs hneq
    simp [handleStorageChange, eventKeyBlocks, hs, hneq]
  · rintro (rfl | rfl | rfl) <;>
      simp [handleStorageChange, eventKeyBlocks,
        (show emptyText.isEmpty = true from rfl)]

/-- Witness for the amended C5: a truthy mismatched key (`other` against
`theme`) leaves the in-memory state `9` unchanged. -/
theorem c5_handle_storage_change_witness :
    handleStorageChange envBrowser [] themeKey (InitialValue.val (JValue.num 4))
        defaultOptions (JValue.num 9) (some otherKey) = JValue.num 9 :=
  (c5_handle_storage_change envBrowser [] themeKey
      (InitialValue.val (JValue.num 4)) defaultOptions (JValue.num 9)
      (some otherKey)).1 otherKey rfl rfl (by decide)

/-! ### Claim C6 -/

/-- Claim C6: writing any value, then removing, then reading yields the
resolved initial value: the key is deleted from the store, the in-memory
state is reset to the resolved initial value, and a fresh read returns it. -/
theorem c6_set_remove_read (env : Env) (store : Store) (mem : JValue)
    (k : String) (init : InitialValue) (opts : LSOptions) (v : JValue)
    (hb : env.browser = true) :
    let r1 := setValue env store mem k init opts (SetStateAction.value v)
    (removeValue env r1.store k init).2
      = Except.ok ⟨removeItem r1.store k, resolveInitial init,
          [⟨localStorageEventName, k⟩]⟩
    ∧ getItem (removeItem r1.store k) k = none
    ∧ (readValue env (removeItem r1.store k) k init opts).1
      = resolveInitial init := by
  refine ⟨by simp [removeValue, hb], getItem_removeItem _ k, ?_⟩
  simp [readValue, hb, getItem_removeItem]

/-- Witness for C6 at a concrete input. -/
theorem c6_set_remove_read_witness :
    let r1 := setValue envBrowser [] JValue.null themeKey
      (InitialValue.val (JValue.str darkText)) defaultOptions
      (SetStateAction.value (JValue.num 8))
    (removeValue envBrowser r1.store themeKey
        (InitialValue.val (JValue.str darkText))).2
      = Except.ok ⟨removeItem r1.store themeKey, JValue.str darkText,
          [⟨localStorageEventName, themeKey⟩]⟩
    ∧ getItem (removeItem r1.store themeKey) themeKey = none
    ∧ (readValue envBrowser (removeItem r1.store themeKey) themeKey
        (InitialValue.val (JValue.str darkText)) defaultOptions).1
      = JValue.str darkText :=
  c6_set_remove_read envBrowser [] JValue.null themeKey
    (InitialValue.val (JValue.str darkText)) defaultOptions (JValue.num 8) rfl

/-! ### Claim C7 -/

/-- Claim C7 counterexample: with a mounted-later ref whose `current` is
`null` and a window available, the effect does attach a listener — to the
window fallback — rather than attaching none. -/
theorem c7_counterexample :
    useEventListenerTarget (some ⟨none⟩) (some windowT) = some windowT
    ∧ some windowT ≠ (none : Option EvTarget) :=
  ⟨rfl, by decide⟩

/-- Claim C7 (amended): when the element reference resolves to nothing, the
utility behaves exactly as if no element were passed: `element?.current ??
window` falls back to the window target, so a listener is attached to the
window when it is available (and only a missing or listener-less fallback
target makes the effect a no-op). -/
theorem c7_null_ref_window_fallback (r : RefObj) (hr : r.current = none)
    (w : Option EvTarget) :
    useEventListenerTarget (some r) w = useEventListenerTarget none w := by
  simp [useEventListenerTarget, resolveListenTarget, hr]

/-- Witness for the amended C7 at a concrete ref and window. -/
theorem c7_null_ref_window_fallback_witness :
    useEventListenerTarget (some ⟨none⟩) (some windowT)
      = useEventListenerTarget none (some windowT) :=
  c7_null_ref_window_fallback ⟨none⟩ rfl (some windowT)

/-! ### Claim C8 -/

/-- Claim C8: the route table maps `/login` to the auth page, maps `/` to a
client-side `Navigate` redirect to `/customers`, and navigating to `/`
renders the same page as navigating to `/customers`. -/
theorem c8_router_table :
    renderRoute 2 loginAbs = some Rendered.auth
    ∧ matchRoutes router rootPath = some (Rendered.redirectTo customersAbs)
    ∧ renderRoute 2 rootPath = renderRoute 2 customersAbs := by
  exact ⟨by decide, by decide, by decide⟩

/-! ### Claim C9 -/

/-- Claim C9: when the stored raw text is the empty string, the read path
treats it as absent — the hook returns the resolved initial value with no
log, whatever deserializer the options carry (the text is never handed to
it). -/
theorem c9_empty_raw_initial (env : Env) (store : Store) (k : String)
    (init : InitialValue) (opts : LSOptions)
    (hb : env.browser = true) (hst : getItem store k = some emptyText) :
    readValue env store k init opts = (resolveInitial init, []) := by
  simp [readValue, hb, hst, (show emptyText.isEmpty = true from rfl)]

/-- Witness for C9 at a concrete store holding the empty string. -/
theorem c9_empty_raw_initial_witness :
    readValue envBrowser [(themeKey, emptyText)] themeKey lazyZero
        defaultOptions
      = (resolveInitial lazyZero, []) :=
  c9_empty_raw_initial envBrowser [(themeKey, emptyText)] themeKey lazyZero
    defaultOptions rfl rfl

/-! ### Claim C10 -/

/-- Claim C10: if serializing the new value throws, or the store write
throws, `setValue` catches the fault: the store and the in-memory state are
left unchanged, no notification is dispatched, and the log ends with the
`console.warn` of the `catch` block. -/
theorem c10_set_error_atomic (env : Env) (store : Store) (mem : JValue)
    (k : String) (init : InitialValue) (opts : LSOptions)
    (action : SetStateAction)
    (hb : env.browser = true)
    (hfail : (∃ e, runSerializer opts
          (newValuePair env store k init opts action).1 = Except.error e)
        ∨ env.writeFails = true) :
    (setValue env store mem k init opts action).store = store
    ∧ (setValue env store mem k init opts action).mem = mem
    ∧ (setValue env store mem k init opts action).events = []
    ∧ (setValue env store mem k init opts action).logs
      = (newValuePair env store k init opts action).2
          ++ [LogEntry.warn msgErrorSetting] := by
  rcases hfail with ⟨e, he⟩ | hwf
  · refine ⟨?_, ?_, ?_, ?_⟩ <;> simp [setValue, hb, he]
  · cases hser : runSerializer opts (newValuePair env store k init opts action).1 with
    | error e => refine ⟨?_, ?_, ?_, ?_⟩ <;> simp [setValue, hb, hser]
    | ok text => refine ⟨?_, ?_, ?_, ?_⟩ <;> simp [setValue, hb, hser, hwf]

/-- Witness for C10: a failing store write (quota) leaves the empty store
and the in-memory `5` untouched and dispatches nothing. -/
theorem c10_set_error_atomic_witness :
    (setValue envQuota [] (JValue.num 5) themeKey
        (InitialValue.val JValue.null) defaultOptions
        (SetStateAction.value (JValue.num 7))).store = []
    ∧ (setValue envQuota [] (JValue.num 5) themeKey
        (InitialValue.val JValue.null) defaultOptions
        (SetStateAction.value (JValue.num 7))).mem = JValue.num 5
    ∧ (setValue envQuota [] (JValue.num 5) themeKey
        (InitialValue.val JValue.null) defaultOptions
        (SetStateAction.value (JValue.num 7))).events = [] :=
  let h := c10_set_error_atomic envQuota [] (JValue.num 5) themeKey
    (InitialValue.val JValue.null) defaultOptions
    (SetStateAction.value (JValue.num 7)) rfl (Or.inr rfl)
  ⟨h.1, h.2.1, h.2.2.1⟩
